import Mathlib

/-!
Shallow embedding of the rare-variant burden-test pipeline of
`src/resources/BroadEWorkshop_RVanalysis.ipynb`.

The notebook is a sequence of Hail 0.2 library calls; the embedding
translates each call according to Hail's documented semantics:

* cell 7 (VariantFilter):
  `mt = mt.filter_rows(hl.agg.call_stats(mt.GT, mt.alleles).AF[1] < 0.01)`
* cells 14/16/18 (IntervalAnnotator):
  `gene_ht.transmute(interval = hl.locus_interval(chromosome, start, end))`,
  `key_by('interval')`,
  `mt.annotate_rows(gene = keyed_gene_table[mt.locus].gene_name)`
* cell 23 (GeneAggregator):
  `mt.group_rows_by('gene').aggregate(n_variants =
     hl.agg.count_where(mt.GT.n_alt_alleles() > 0))` followed by
  `burden_mt.filter_rows(hl.agg.sum(burden_mt.n_variants) > 0)`
* cell 27 (CovariateBuilder): `hl.hwe_normalized_pca(mt.GT, compute_loadings=True)`
* cell 28 (RegressionEngine): `hl.linear_regression_rows(...)`
* cell 30 (ResultRanker): `burden_results.order_by(burden_results.p_value)`

Genotype calls are diploid; a call is modelled by its `n_alt_alleles()`
value (`some c`) or `none` when missing.  Allele frequencies and
regression statistics are modelled over `ℚ`; where the library would
produce a missing value or NaN float (both of which fail a strict `<`
comparison and sort after all defined values), the model uses `none`.
-/

namespace RareVariant

/-- A variant row key: the `locus` of the matrix table, i.e. contig name and
1-based position. -/
structure Variant where
  contig : String
  position : Int
deriving DecidableEq, Repr

/-- One row of the genotype matrix table: the variant plus one diploid call
per sample column.  `some c` is a call carrying `c` alternate alleles
(`GT.n_alt_alleles()`, so `c ∈ {0,1,2}` for biallelic data); `none` is a
missing call. -/
structure Row where
  variant : Variant
  calls : List (Option Nat)
deriving DecidableEq, Repr

/-- `hl.agg.call_stats(mt.GT, mt.alleles).AN`: twice the number of
non-missing diploid calls in the row. -/
def alleleNumber (r : Row) : Nat :=
  2 * (r.calls.filterMap id).length

/-- `hl.agg.call_stats(mt.GT, mt.alleles).AC[1]`: the total number of
alternate alleles observed in the row. -/
def altAlleleCount (r : Row) : Nat :=
  (r.calls.filterMap id).sum

/-- `hl.agg.call_stats(mt.GT, mt.alleles).AF[1] = AC[1] / AN`.  When
`AN = 0` the quotient is not a number (the library produces NaN/missing),
modelled as `none`. -/
def alleleFrequency (r : Row) : Option ℚ :=
  if alleleNumber r = 0 then none
  else some ((altAlleleCount r : ℚ) / (alleleNumber r : ℚ))

/-- The row predicate of cell 7, `call_stats(...).AF[1] < threshold`:
true exactly when the frequency is defined and strictly below the
threshold.  A NaN or missing frequency does not satisfy the strict
comparison, and `filter_rows` removes rows whose predicate is not true. -/
def keepVariant (t : ℚ) (r : Row) : Bool :=
  match alleleFrequency r with
  | some q => decide (q < t)
  | none => false

/-- Cell 7 (VariantFilter):
`mt = mt.filter_rows(hl.agg.call_stats(mt.GT, mt.alleles).AF[1] < 0.01)`,
with the threshold `0.01` kept as a parameter `t`. -/
def variantFilter (t : ℚ) (m : List Row) : List Row :=
  m.filter (keepVariant t)

/-- The notebook's threshold: `0.01`. -/
def defaultThreshold : ℚ := 1/100

theorem keepVariant_iff (t : ℚ) (r : Row) :
    keepVariant t r = true ↔ ∃ q, alleleFrequency r = some q ∧ q < t := by
  unfold keepVariant
  cases h : alleleFrequency r with
  | none => simp
  | some q => simp

/-- Claim C1: the variant filter retains a row if and only if its computed
allele frequency (alternate allele count over total alleles observed) is
defined and strictly below the threshold; in particular every retained row
has allele frequency strictly below the threshold. -/
theorem c1_variant_filter_iff (t : ℚ) (m : List Row) (r : Row) :
    r ∈ variantFilter t m ↔
      r ∈ m ∧ ∃ q, alleleFrequency r = some q ∧ q < t := by
  rw [variantFilter, List.mem_filter, keepVariant_iff]

/-- Claim C6, counterexample: a variant all of whose calls are missing has
zero observed alleles, its frequency is undefined, and the filter at the
default threshold removes it — it is not retained as the claim states. -/
theorem c6_zero_alleles_dropped :
    alleleFrequency ⟨⟨"1", 100⟩, [none]⟩ = none ∧
      variantFilter defaultThreshold [⟨⟨"1", 100⟩, [none]⟩] = [] := by
  constructor <;> rfl

/-- Claim C6, amended: a variant with zero observed alleles has an
undefined (NaN/missing) frequency, the strict comparison against the
threshold is therefore not true, and the variant is removed by the filter. -/
theorem c6_undefined_frequency_dropped (t : ℚ) (m : List Row) (r : Row)
    (h : alleleNumber r = 0) : r ∉ variantFilter t m := by
  intro hmem
  rcases (keepVariant_iff t r).mp (List.mem_filter.mp hmem).2 with ⟨q, hq, -⟩
  rw [alleleFrequency, if_pos h] at hq
  exact Option.noConfusion hq

/-- Witness for `c6_undefined_frequency_dropped` at a concrete all-missing
row. -/
theorem c6_witness :
    (⟨⟨"1", 100⟩, [none]⟩ : Row) ∉
      variantFilter defaultThreshold [⟨⟨"1", 100⟩, [none]⟩] :=
  c6_undefined_frequency_dropped defaultThreshold _ _ (by decide)

/-- One row of the gene reference table
`resources/ensembl_gene_annotations.txt`: columns
`chromosome, start, end, gene_name` (`end` is spelled `stop` here because
`end` is reserved). -/
structure GeneInterval where
  chromosome : String
  start : Int
  stop : Int
  gene_name : String
deriving DecidableEq, Repr

/-- Locus membership in `hl.locus_interval(chromosome, start, end)` with the
library defaults `includes_start=True, includes_end=False`: the contigs
agree and `start ≤ position < end` (half-open on the right). -/
def inInterval (iv : GeneInterval) (v : Variant) : Bool :=
  decide (iv.chromosome = v.contig) &&
    decide (iv.start ≤ v.position) && decide (v.position < iv.stop)

/-- Cell 18: `keyed_gene_table[mt.locus].gene_name` — look the locus up in
the interval-keyed table, yielding the gene name of a containing interval,
or missing when no interval contains the locus.  When several intervals
contain the locus the source fixes no tie-break; the model takes the first
match in reference-table order. -/
def annotateGene (ivs : List GeneInterval) (v : Variant) : Option String :=
  (ivs.find? (fun iv => inInterval iv v)).map GeneInterval.gene_name

/-- Claim C4, counterexample: for the interval chr1 `[100, 200]` and a
variant at chr1 position 200 — the interval's right endpoint, so inside the
closed-closed interval the claim describes — the annotation is missing:
`hl.locus_interval` excludes the end by default. -/
theorem c4_end_position_unassigned :
    annotateGene [⟨"1", 100, 200, "GENE_A"⟩] ⟨"1", 200⟩ = none ∧
      (100 : Int) ≤ 200 ∧ (200 : Int) ≤ 200 := by
  refine ⟨rfl, by decide, by decide⟩

/-- Claim C4, amended: a variant is assigned a gene exactly when some
reference interval has a matching chromosome and contains the variant's
position in the half-open sense `start ≤ position < end`; the right
endpoint is excluded. -/
theorem c4_half_open_membership (ivs : List GeneInterval) (v : Variant) :
    (∃ g, annotateGene ivs v = some g) ↔
      ∃ iv ∈ ivs, iv.chromosome = v.contig ∧
        iv.start ≤ v.position ∧ v.position < iv.stop := by
  unfold annotateGene
  rw [← Option.isSome_iff_exists, Option.isSome_map']
  rw [List.find?_isSome]
  constructor
  · rintro ⟨iv, hiv, hp⟩
    refine ⟨iv, hiv, ?_⟩
    simpa [inInterval, and_assoc] using hp
  · rintro ⟨iv, hiv, hp⟩
    refine ⟨iv, hiv, ?_⟩
    simpa [inInterval, and_assoc] using hp

/-- A genotype row after cell 18's `annotate_rows`: the row's `gene` field
(`none` when the locus lies in no reference interval) together with its
per-sample calls. -/
structure ARow where
  gene : Option String
  calls : List (Option Nat)
deriving DecidableEq, Repr

/-- Cell 18: `mt = mt.annotate_rows(gene = keyed_gene_table[mt.locus].gene_name)`. -/
def annotateRows (ivs : List GeneInterval) (m : List Row) : List ARow :=
  m.map (fun r => ⟨annotateGene ivs r.variant, r.calls⟩)

/-- The entry predicate of cell 23's aggregation,
`mt.GT.n_alt_alleles() > 0`, at sample column `i`: true when the call is
present and carries at least one alternate allele.  `count_where` does not
count entries whose predicate is missing, so a missing call yields
`false`. -/
def carrierAt (r : ARow) (i : Nat) : Bool :=
  match r.calls.getD i none with
  | some c => decide (0 < c)
  | none => false

/-- Cell 23: the `n_variants` entry of
`mt.group_rows_by('gene').aggregate(n_variants =
hl.agg.count_where(mt.GT.n_alt_alleles() > 0))` for group key `g` and
sample column `i`: among the rows whose `gene` equals `g`, the number
whose call in column `i` is a carrier call. -/
def nVariants (rows : List ARow) (g : Option String) (i : Nat) : Nat :=
  ((rows.filter (fun r => r.gene = g)).filter (fun r => carrierAt r i)).length

/-- The group keys produced by `group_rows_by('gene')`: the distinct values
of the `gene` field, including `none` — Hail groups rows with a missing
key into a single missing-key group.  (Hail emits groups in key order; the
model keeps first-appearance order, which no stated property depends on.) -/
def groupKeys (rows : List ARow) : List (Option String) :=
  rows.foldl (fun acc r => if r.gene ∈ acc then acc else acc ++ [r.gene]) []

/-- The grouped burden matrix of cell 23 before its row filter: one row per
group key, holding the `n_variants` count for each of the `n` sample
columns. -/
def burdenPre (n : Nat) (rows : List ARow) : List (Option String × List Nat) :=
  (groupKeys rows).map (fun g => (g, (List.range n).map (nVariants rows g)))

/-- Cell 23's second statement:
`burden_mt = burden_mt.filter_rows(hl.agg.sum(burden_mt.n_variants) > 0)`. -/
def burdenPost (n : Nat) (rows : List ARow) : List (Option String × List Nat) :=
  (burdenPre n rows).filter (fun gc => decide (0 < gc.2.sum))

/-- The spec's description of a counted entry: the sample carries at least
one alternate allele at the variant — the call is strictly greater than 0,
and a missing call is never counted. -/
def carriesAlt (r : ARow) (i : Nat) : Prop :=
  ∃ c, r.calls.getD i none = some c ∧ 0 < c

instance (r : ARow) (i : Nat) : Decidable (carriesAlt r i) :=
  match h : r.calls.getD i none with
  | some c =>
    if hc : 0 < c then isTrue ⟨c, h, hc⟩
    else
      isFalse (fun ⟨c', hc', hlt⟩ => by
        rw [h] at hc'
        cases hc'
        exact hc hlt)
  | none =>
    isFalse (fun ⟨c', hc', _⟩ => by
      rw [h] at hc'
      exact Option.noConfusion hc')

theorem carrierAt_iff (r : ARow) (i : Nat) :
    carrierAt r i = true ↔ carriesAlt r i := by
  unfold carrierAt carriesAlt
  cases h : r.calls.getD i none with
  | none => simp
  | some c => simp

theorem nVariants_eq_count (rows : List ARow) (g : Option String) (i : Nat) :
    nVariants rows g i =
      (rows.filter (fun r => decide (r.gene = g ∧ carriesAlt r i))).length := by
  unfold nVariants
  rw [List.filter_filter]
  congr 1
  apply List.filter_congr
  intro r _
  rcases hc : carrierAt r i with _ | _
  · have : ¬ carriesAlt r i := fun h => by
      rw [(carrierAt_iff r i).mpr h] at hc
      exact Bool.noConfusion hc
    simp [hc, this]
  · have : carriesAlt r i := (carrierAt_iff r i).mp hc
    simp [hc, this]

/-- Claim C2: every `n_variants` entry of the grouped burden matrix, at
gene `g` and sample column `i`, equals the number of variant rows assigned
to `g` at which that sample's call is strictly greater than 0, with
missing calls never counted. -/
theorem c2_n_variants_counts_carriers (n : Nat) (rows : List ARow)
    (g : String) (cs : List Nat) (h : (some g, cs) ∈ burdenPre n rows)
    (i : Nat) (hi : i < n) :
    cs.getD i 0 =
      (rows.filter (fun r => decide (r.gene = some g ∧ carriesAlt r i))).length := by
  rcases List.mem_map.mp h with ⟨k, -, hk⟩
  have hkey : k = some g := congrArg Prod.fst hk
  have hcs : cs = (List.range n).map (nVariants rows (some g)) := by
    have hsnd := congrArg Prod.snd hk
    simp only at hsnd
    rw [← hsnd, hkey]
  subst hcs
  rw [List.getD_eq_getElem?_getD]
  rw [List.getElem?_map]
  rw [List.getElem?_range hi]
  exact nVariants_eq_count rows (some g) i

/-- Witness for `c2_n_variants_counts_carriers`: a two-sample matrix with
one gene-A row whose first call is hom-alt and second call missing; the
burden entries for gene A are 1 and 0. -/
theorem c2_witness :
    ([1, 0] : List Nat).getD 1 0 =
      (([⟨some "A", [some 2, none]⟩] : List ARow).filter
        (fun r => decide (r.gene = some "A" ∧ carriesAlt r 1))).length :=
  c2_n_variants_counts_carriers 2 [⟨some "A", [some 2, none]⟩] "A" [1, 0]
    (by decide) 1 (by decide)

/-- Claim C3: every row of the burden matrix that survives the post-filter
has a strictly positive sum of `n_variants` over the samples. -/
theorem c3_burden_rows_positive (n : Nat) (rows : List ARow)
    (g : Option String) (cs : List Nat) (h : (g, cs) ∈ burdenPost n rows) :
    0 < cs.sum := by
  have := (List.mem_filter.mp h).2
  simpa using this

/-- Witness for `c3_burden_rows_positive` at a one-sample, one-gene
matrix. -/
theorem c3_witness : 0 < ([1] : List Nat).sum :=
  c3_burden_rows_positive 1 [⟨some "A", [some 1]⟩] (some "A") [1] (by decide)

/-- Claim C5, counterexample: a variant overlapping no reference interval
(chromosome 2 against a chromosome-1 interval) gets a missing gene, yet
`group_rows_by('gene')` aggregates it into a missing-key group whose
`n_variants` entry is 1; that group survives the post-filter, so the
burden matrix does contain an entry counting the unmapped variant. -/
theorem c5_unmapped_variant_aggregated :
    annotateGene [⟨"1", 100, 200, "GENE_A"⟩] ⟨"2", 50⟩ = none ∧
      burdenPost 1
        (annotateRows [⟨"1", 100, 200, "GENE_A"⟩] [⟨⟨"2", 50⟩, [some 1]⟩]) =
        [(none, [1])] := by
  constructor <;> rfl

/-- Claim C5, amended: a variant overlapping no interval has a missing
gene, and it contributes to no named-gene group — every `n_variants` entry
at a key `some g` is unchanged when the unmapped rows are removed — but
such variants are aggregated into a single missing-key group of the burden
matrix rather than being dropped from aggregation. -/
theorem c5_unmapped_excluded_from_named_genes (rows : List ARow) (g : String)
    (i : Nat) (ivs : List GeneInterval) (v : Variant)
    (h : ∀ iv ∈ ivs, ¬ inInterval iv v = true) :
    nVariants rows (some g) i =
        nVariants (rows.filter (fun r => decide (r.gene ≠ none))) (some g) i ∧
      annotateGene ivs v = none := by
  constructor
  · unfold nVariants
    congr 1
    simp only [List.filter_filter]
    apply List.filter_congr
    intro r _
    cases hg : r.gene with
    | none => simp [hg]
    | some g' => simp [hg]
  · unfold annotateGene
    rw [List.find?_eq_none.mpr h]
    rfl

/-- Witness for `c5_unmapped_excluded_from_named_genes`: one unmapped row
and one gene-A row; removing the unmapped row leaves gene A's count
unchanged. -/
theorem c5_witness :
    nVariants [⟨none, [some 1]⟩, ⟨some "A", [some 1]⟩] (some "A") 0 =
        nVariants (([⟨none, [some 1]⟩, ⟨some "A", [some 1]⟩] : List ARow).filter
          (fun r => decide (r.gene ≠ none))) (some "A") 0 ∧
      annotateGene [⟨"1", 100, 200, "GENE_A"⟩] ⟨"2", 50⟩ = none :=
  c5_unmapped_excluded_from_named_genes _ "A" 0 [⟨"1", 100, 200, "GENE_A"⟩]
    ⟨"2", 50⟩ (by decide)

/-- One output row of cell 28's `hl.linear_regression_rows`: the row key
(the gene) together with the per-row ordinary-least-squares statistics
(beta, standard error, p-value).  The library computes the statistics in
floating point and never raises an error for an individual row; a
degenerate (rank-deficient) design yields NaN statistics, modelled as
`stats = none`. -/
structure RegressionResult where
  gene : Option String
  stats : Option (ℚ × ℚ × ℚ)
deriving DecidableEq, Repr

/-- The `p_value` field of a regression result row. -/
def pValueOf (r : RegressionResult) : Option ℚ :=
  r.stats.map (fun s => s.2.2)

/-- Cell 28: `hl.linear_regression_rows(y=..., x=burden_mt.n_variants,
covariates=[...])` over the filtered burden matrix — one result row per
input row, with the row key carried over.  The numeric least-squares
computation is the library's; it is abstracted as `stats`, a function of
the gene's `n_variants` column. -/
def linearRegressionRows (stats : List Nat → Option (ℚ × ℚ × ℚ))
    (bm : List (Option String × List Nat)) : List RegressionResult :=
  bm.map (fun gc => ⟨gc.1, stats gc.2⟩)

/-- Claim C7, counterexample: gene G0 has `n_variants = 0` for every
sample, yet the regression step neither fails nor reports it: the burden
post-filter removes G0 before `linear_regression_rows` runs, so the
regression output (for any statistics function, here the constant `none`)
contains a result for G1 only — there is no per-gene error value for G0
anywhere in the pipeline. -/
theorem c7_all_zero_gene_not_regressed :
    nVariants [⟨some "G0", [some 0]⟩, ⟨some "G1", [some 1]⟩] (some "G0") 0 = 0 ∧
      (linearRegressionRows (fun _ => none)
          (burdenPost 1 [⟨some "G0", [some 0]⟩, ⟨some "G1", [some 1]⟩])).map
        RegressionResult.gene = [some "G1"] := by
  constructor <;> rfl

/-- Claim C7, amended: every result row of the regression over the
post-filtered burden matrix comes from a gene whose `n_variants` sum over
the samples is strictly positive — a gene with all-zero `n_variants` is
removed by the burden filter before the regression and is absent from the
results — and the regression step is total, producing exactly one result
per surviving burden row with no error. -/
theorem c7_regression_skips_all_zero_genes
    (stats : List Nat → Option (ℚ × ℚ × ℚ)) (n : Nat) (rows : List ARow)
    (res : RegressionResult)
    (h : res ∈ linearRegressionRows stats (burdenPost n rows)) :
    (∃ cs, (res.gene, cs) ∈ burdenPre n rows ∧ 0 < cs.sum) ∧
      (linearRegressionRows stats (burdenPost n rows)).length =
        (burdenPost n rows).length := by
  refine ⟨?_, List.length_map _ _⟩
  rcases List.mem_map.mp h with ⟨gc, hgc, hres⟩
  rcases List.mem_filter.mp hgc with ⟨hpre, hsum⟩
  refine ⟨gc.2, ?_, by simpa using hsum⟩
  rw [← hres]
  exact hpre

/-- Witness for `c7_regression_skips_all_zero_genes` at the concrete
two-gene burden matrix with G0 all-zero. -/
theorem c7_witness :
    (∃ cs, ((some "G1" : Option String), cs) ∈
        burdenPre 1 [⟨some "G0", [some 0]⟩, ⟨some "G1", [some 1]⟩] ∧
        0 < cs.sum) ∧
      (linearRegressionRows (fun _ => none)
          (burdenPost 1 [⟨some "G0", [some 0]⟩, ⟨some "G1", [some 1]⟩])).length =
        (burdenPost 1 [⟨some "G0", [some 0]⟩, ⟨some "G1", [some 1]⟩]).length :=
  c7_regression_skips_all_zero_genes (fun _ => none) 1
    [⟨some "G0", [some 0]⟩, ⟨some "G1", [some 1]⟩] ⟨some "G1", none⟩ (by decide)

/-- The comparator of cell 30's
`burden_results.order_by(burden_results.p_value)`: ascending on defined
p-values, with undefined (missing/NaN) p-values ordered after every
defined one, as in the library's ordering.  The sort key is the p-value
alone — the gene name is not consulted. -/
def pLEb (a b : RegressionResult) : Bool :=
  match pValueOf a, pValueOf b with
  | some x, some y => decide (x ≤ y)
  | some _, none => true
  | none, some _ => false
  | none, none => true

/-- Cell 30 (ResultRanker):
`burden_results.order_by(burden_results.p_value)`.  The source orders by
the p-value key only; ties are left in an unspecified order, modelled here
by a stable sort. -/
def orderByP (rs : List RegressionResult) : List RegressionResult :=
  List.insertionSort (fun a b => pLEb a b = true) rs

instance : IsTotal RegressionResult (fun a b => pLEb a b = true) := by
  constructor
  intro a b
  unfold pLEb
  rcases ha : pValueOf a with _ | x <;> rcases hb : pValueOf b with _ | y <;>
    simp [ha, hb]
  exact le_total x y

instance : IsTrans RegressionResult (fun a b => pLEb a b = true) := by
  constructor
  intro a b c hab hbc
  unfold pLEb at *
  rcases ha : pValueOf a with _ | x <;> rcases hb : pValueOf b with _ | y <;>
    rcases hc : pValueOf c with _ | z <;> simp [ha, hb, hc] at *
  exact le_trans hab hbc

/-- Claim C8, counterexample: two result rows with the same p-value, the
gene-B row listed before the gene-A row; the sort leaves them in that
order, so equal p-values are not ordered by gene name lexicographically. -/
theorem c8_ties_not_lexicographic :
    orderByP [⟨some "B", some (0, 0, 1)⟩, ⟨some "A", some (0, 0, 1)⟩] =
        [⟨some "B", some (0, 0, 1)⟩, ⟨some "A", some (0, 0, 1)⟩] ∧
      pValueOf ⟨some "B", some (0, 0, 1)⟩ =
        pValueOf ⟨some "A", some (0, 0, 1)⟩ := by
  constructor <;> decide

/-- Claim C8, amended: the ranked output is sorted ascending by p-value —
every pair of rows in output order satisfies the p-value comparator, with
undefined p-values last — but rows with equal p-values stay in an
unspecified (here: input) order; no gene-name tie-break is applied. -/
theorem c8_sorted_by_p_value (rs : List RegressionResult) :
    (orderByP rs).Sorted (fun a b => pLEb a b = true) :=
  List.sorted_insertionSort (fun a b => pLEb a b = true) rs

/-- The default number of components of `hl.hwe_normalized_pca`, whose
signature is `hwe_normalized_pca(call_expr, k=10, compute_loadings=False)`;
cell 27 passes no `k`, so this default applies. -/
def hwePcaDefaultK : Nat := 10

/-- One sample's `scores` array from `hl.hwe_normalized_pca`: the sample's
coordinates along the top `k` principal components.  The eigendecomposition
of the HWE-normalized genotype matrix is the library's floating-point
computation, abstracted as `score` giving the sample's coordinate on each
component; the shape — one entry per component, `k` in total — is fixed by
the call. -/
def pcaScoreVector (k : Nat) (score : Nat → ℚ) : List ℚ :=
  (List.range k).map score

/-- The `pca_scores` table of cell 27: one `scores` array per sample. -/
def pcaScores (k : Nat) (score : String → Nat → ℚ) (samples : List String) :
    List (String × List ℚ) :=
  samples.map (fun s => (s, pcaScoreVector k (score s)))

/-- Claim C9, counterexample: at the library's default `k` — which cell 27
uses, passing no `k` — a sample's score vector has 10 entries, not 3. -/
theorem c9_default_scores_have_ten_entries :
    (pcaScoreVector hwePcaDefaultK (fun _ => 0)).length = 10 ∧
      hwePcaDefaultK ≠ 3 := by
  constructor <;> decide

/-- Claim C9, amended: `hwe_normalized_pca` defaults to `k = 10`, so every
per-sample score vector produced by cell 27 has exactly 10 entries; the
notebook then uses only entries 0, 1 and 2 of the scores as regression
covariates. -/
theorem c9_score_vector_length (score : String → Nat → ℚ)
    (samples : List String) (s : String) (v : List ℚ)
    (h : (s, v) ∈ pcaScores hwePcaDefaultK score samples) :
    v.length = 10 ∧ hwePcaDefaultK = 10 := by
  rcases List.mem_map.mp h with ⟨s', -, hs⟩
  have hv : v = pcaScoreVector hwePcaDefaultK (score s') := by
    have hsnd := congrArg Prod.snd hs
    simpa using hsnd.symm
  subst hv
  exact ⟨by simp [pcaScoreVector, hwePcaDefaultK], rfl⟩

/-- Witness for `c9_score_vector_length` at a one-sample score table. -/
theorem c9_witness :
    (pcaScoreVector hwePcaDefaultK (fun _ => (0 : ℚ))).length = 10 ∧
      hwePcaDefaultK = 10 :=
  c9_score_vector_length (fun _ _ => 0) ["s1"] "s1"
    (pcaScoreVector hwePcaDefaultK (fun _ => 0))
    (List.mem_map.mpr ⟨"s1", by simp, rfl⟩)

/-- The genotype matrix handed to `hl.hwe_normalized_pca(mt.GT)` in
cell 27: by then `mt` has been reassigned by cell 7's allele-frequency
filter (cell 18's row annotation adds a `gene` field but leaves the rows
and their `GT` entries unchanged), so the PCA input is the post-filter
matrix, not the matrix the notebook started from. -/
def pcaInputRows (t : ℚ) (raw : List Row) : List Row :=
  variantFilter t raw

/-- A one-sample matrix with a single heterozygous variant: its allele
frequency is 1/2. -/
def demoRow : Row := ⟨⟨"1", 100⟩, [some 1]⟩

/-- Claim C10: the genotypes handed to the PCA are exactly the output of
the allele-frequency filter; and this matters — for the concrete one-row
matrix `demoRow` (allele frequency 1/2) the PCA input at the notebook's
threshold `0.01` is empty and differs both from the unfiltered matrix and
from the PCA input at a threshold of `0.6`, so the covariate scores, a
function of this input, depend on the threshold. -/
theorem c10_pca_input_is_filtered :
    (∀ t raw, pcaInputRows t raw = variantFilter t raw) ∧
      pcaInputRows defaultThreshold [demoRow] = [] ∧
      pcaInputRows (3/5) [demoRow] = [demoRow] ∧
      pcaInputRows defaultThreshold [demoRow] ≠ [demoRow] := by
  have haf : alleleFrequency demoRow = some (1/2) := by
    norm_num [alleleFrequency, alleleNumber, altAlleleCount, demoRow,
      List.filterMap_cons, List.filterMap_nil]
  have hlow : keepVariant defaultThreshold demoRow = false := by
    rw [keepVariant, haf]
    norm_num [defaultThreshold]
  have hmed : keepVariant (3/5) demoRow = true := by
    rw [keepVariant, haf]
    norm_num
  refine ⟨fun _ _ => rfl, ?_, ?_, ?_⟩
  · simp [pcaInputRows, variantFilter, List.filter_cons, hlow]
  · simp [pcaInputRows, variantFilter, List.filter_cons, hmed]
  · simp [pcaInputRows, variantFilter, List.filter_cons, hlow]

end RareVariant
